import Mathlib

/-!
A shallow embedding of `gematria/datasets/find_accessed_addrs.cc`.

The source is a ptrace-based supervisor: a forked child maps memory and jumps
into a caller-supplied basic block, while the parent classifies the child's
stops and accumulates the page-aligned fault addresses in an `AccessedAddrs`
record.  The embedding models every operating-system interaction (waitpid
results, siginfo, kill, mmap, and the read/write system calls on the pipe) as
explicit inputs carried by "world" records, and models the sequence of
externally visible actions (kill, reap, pipe reads, pipe close, the child's
munmap and mmap calls) as explicit event lists so that ordering claims can be
stated.

Status messages are modelled as UTF-8 byte lists; the source's `absl`
formatting calls are mirrored with plain decimal/hex renderers.  `errno` is
modelled POSIX-portably: a failing call sets it, a successful call leaves it
unchanged, exactly the property the source's retry loops are sensitive to.
-/

namespace Gematria

/-! ## errno and signal constants (x86-64 Linux values) -/

def EINTR : Nat := 4
def EAGAIN : Nat := 11
def EWOULDBLOCK : Nat := 11
def EBADF : Nat := 9
def EINVAL : Nat := 22
def EACCES : Nat := 13
def EPERM : Nat := 1

def SIGABRT : Nat := 6
def SIGBUS : Nat := 7
def SIGFPE : Nat := 8
def SIGSEGV : Nat := 11
def SIGSTOP : Nat := 19

/-! ## Byte-list renderings of strings and numbers -/

def strBytes (s : String) : List Nat := s.data.map Char.toNat

def natBytes (n : Nat) : List Nat := strBytes (toString n)

def intBytes (i : Int) : List Nat := strBytes (toString i)

def hexDigitChar (n : Nat) : Nat := if n < 10 then 48 + n else 87 + n

/-- Rendering of `%016x`: sixteen lowercase hex digits, zero padded. -/
def hex16 (n : Nat) : List Nat :=
  (List.range 16).map (fun i => hexDigitChar (n / 16 ^ (15 - i) % 16))

/-- Rendering of `%p` as glibc prints pointers. -/
def ptrBytes (n : Nat) : List Nat :=
  strBytes "0x" ++ (Nat.toDigits 16 n).map Char.toNat

/-! ## absl status model

`absl::StatusCode` is a closed enumeration; the source uses `kOk`,
`kInvalidArgument` and `kInternal` directly and whatever
`absl::ErrnoToStatus` produces for failing system calls. -/

inductive StatusCode where
  | ok
  | cancelled
  | unknown
  | invalidArgument
  | deadlineExceeded
  | notFound
  | alreadyExists
  | permissionDenied
  | resourceExhausted
  | failedPrecondition
  | aborted
  | outOfRange
  | unimplemented
  | internal
  | unavailable
  | dataLoss
  | unauthenticated
deriving DecidableEq

structure Status where
  code : StatusCode
  message : List Nat
deriving DecidableEq

def okStatus : Status := { code := .ok, message := [] }

def internalStatus (msg : List Nat) : Status := { code := .internal, message := msg }

def invalidArgStatus (msg : List Nat) : Status :=
  { code := .invalidArgument, message := msg }

/-- Models `absl::ErrnoToStatusCode` (external library): each errno value maps
to a fixed canonical status code, never `kOk` for a nonzero errno.  Only the
errno values exercised by this development are mapped precisely; the library's
default bucket is `kUnknown`. -/
def ErrnoToStatusCode (e : Nat) : StatusCode :=
  if e = EINVAL then .invalidArgument
  else if e = EBADF then .failedPrecondition
  else if e = EINTR ∨ e = EAGAIN then .unavailable
  else if e = EACCES ∨ e = EPERM then .permissionDenied
  else .unknown

/-- Models `absl::ErrnoToStatus(err, msg)`: canonical code for `err`, message
prefixed with `msg` (the library appends `strerror`; here the errno number is
appended). -/
def ErrnoToStatus (e : Nat) (msg : List Nat) : Status :=
  { code := ErrnoToStatusCode e, message := msg ++ strBytes ": errno " ++ natBytes e }

/-! ## The IPC frame -/

/-- `kDefaultCodeLocation` from the source. -/
def kDefaultCodeLocation : Nat := 0x2b0000000000

/-- Capacity of `PipedData::status_message`. -/
def kMessageCapacity : Nat := 1024

/-- `sizeof(PipedData)` on x86-64: a 4-byte enum, 1024 message bytes, 4
padding bytes before the 8-byte `code_address`. -/
def kPipedDataSize : Nat := 1040

/-- `struct PipedData`, with the alignment padding before `code_address` made
explicit so that the zero-initialisation contract can be stated. -/
structure PipedData where
  status_code : StatusCode
  status_message : List Nat
  pad : List Nat
  code_address : Nat
deriving DecidableEq

/-- `MakePipedData`: the struct with every byte zeroed (`memset`), so the
status code is `kOk` (enum value 0) and all message, padding and address bytes
are zero. -/
def MakePipedData : PipedData :=
  { status_code := .ok
    status_message := List.replicate kMessageCapacity 0
    pad := List.replicate 4 0
    code_address := 0 }

/-- `repmovsb(dst, src, count)` with `count = src.length`: overwrite the first
`src.length` bytes of `dst`, keeping the rest. -/
def overlayFrom (dst src : List Nat) : List Nat := src ++ dst.drop src.length

/-- The frame built by `AbortChildProcess` before it writes the pipe and
aborts: a zeroed struct carrying the status code, with
`min(message.length, capacity - 1)` message bytes copied in by `repmovsb`. -/
def AbortFrame (st : Status) : PipedData :=
  let message_length := min st.message.length (kMessageCapacity - 1)
  { MakePipedData with
      status_code := st.code
      status_message :=
        overlayFrom MakePipedData.status_message (st.message.take message_length) }

/-- Reading a `char` array as a C string: the bytes before the first NUL. -/
def cString (bytes : List Nat) : List Nat := bytes.takeWhile (fun b => b ≠ 0)

/-! ## The pipe codec: `WriteAll` and `ReadAll`

The behaviour of the underlying `read`/`write` system calls is an input: a
list of call results consumed in order.  A successful call returns its byte
count and leaves `errno` unchanged; a failing call returns -1 and sets
`errno`.  The functions also return the log of issued calls (offset passed to
each call together with its result) so that retry claims can be stated.
`none` means the modelled call sequence was exhausted before the source loop
finished (the real code would keep blocking in further calls). -/

inductive CallResult where
  | success (n : Nat)
  | failure (e : Nat)
deriving DecidableEq

def applyCall (errno : Nat) : CallResult → Int × Nat
  | .success n => ((n : Int), errno)
  | .failure e => (-1, e)

def IsRetryable (err : Nat) : Bool :=
  err = EINTR || err = EAGAIN || err = EWOULDBLOCK

inductive IoResult where
  | ioOk
  | ioErr (st : Status)
deriving DecidableEq

def msgWriteFail : List Nat := strBytes "Failed to write to pipe"
def msgReadFail : List Nat := strBytes "Failed to read from pipe"

def msgShortRead (expected got : Nat) : List Nat :=
  strBytes "Read less than expected from pipe (expected " ++ natBytes expected ++
    strBytes "B, got " ++ natBytes got ++ strBytes "B)"

/-- The loop of `WriteAll`: while fewer than `size` bytes are written, issue a
call; re-issue it while `errno` holds a retryable value; surface a negative
return as an errno status; otherwise advance the offset by the return value.
On completion `close(fd)` is called and `OkStatus` returned. -/
def WriteAllGo (size : Nat) : Nat → Nat → List CallResult →
    List (Nat × CallResult) → Option (IoResult × List (Nat × CallResult))
  | _, _, [], _ => none
  | offset, errno, c :: rest, log =>
    let r := applyCall errno c
    let log1 := log ++ [(offset, c)]
    if IsRetryable r.2 then WriteAllGo size offset r.2 rest log1
    else if r.1 < 0 then some (.ioErr (ErrnoToStatus r.2 msgWriteFail), log1)
    else if offset + r.1.toNat < size then
      WriteAllGo size (offset + r.1.toNat) r.2 rest log1
    else some (.ioOk, log1)

def WriteAll (errno0 : Nat) (calls : List CallResult) :
    Option (IoResult × List (Nat × CallResult)) :=
  WriteAllGo kPipedDataSize 0 errno0 calls []

/-- The loop of `ReadAll`.  Same retry structure as `WriteAllGo`; additionally
a zero return breaks out of the loop, and after the loop an offset different
from the frame size is an internal error.  The returned `Bool` records whether
`close(fd)` ran (it runs only on the success path). -/
def ReadAllGo (size : Nat) : Nat → Nat → List CallResult →
    List (Nat × CallResult) → Option (IoResult × Bool × List (Nat × CallResult))
  | _, _, [], _ => none
  | offset, errno, c :: rest, log =>
    let r := applyCall errno c
    let log1 := log ++ [(offset, c)]
    if IsRetryable r.2 then ReadAllGo size offset r.2 rest log1
    else if r.1 < 0 then some (.ioErr (ErrnoToStatus r.2 msgReadFail), false, log1)
    else if r.1 = 0 then
      some (.ioErr (internalStatus (msgShortRead size offset)), false, log1)
    else if offset + r.1.toNat < size then
      ReadAllGo size (offset + r.1.toNat) r.2 rest log1
    else if offset + r.1.toNat = size then some (.ioOk, true, log1)
    else
      some (.ioErr (internalStatus (msgShortRead size (offset + r.1.toNat))), false, log1)

def ReadAll (errno0 : Nat) (calls : List CallResult) :
    Option (IoResult × Bool × List (Nat × CallResult)) :=
  ReadAllGo kPipedDataSize 0 errno0 calls []

/-! ## Registers and the `AccessedAddrs` record -/

/-- `X64Regs` (from `find_accessed_addrs.h`): the 16 general-purpose integer
registers loaded by the before-block code. -/
structure X64Regs where
  rax : Nat
  rbx : Nat
  rcx : Nat
  rdx : Nat
  rsi : Nat
  rdi : Nat
  rsp : Nat
  rbp : Nat
  r8 : Nat
  r9 : Nat
  r10 : Nat
  r11 : Nat
  r12 : Nat
  r13 : Nat
  r14 : Nat
  r15 : Nat
deriving DecidableEq

def regsAll (v : Nat) : X64Regs :=
  { rax := v, rbx := v, rcx := v, rdx := v, rsi := v, rdi := v, rsp := v, rbp := v
    r8 := v, r9 := v, r10 := v, r11 := v, r12 := v, r13 := v, r14 := v, r15 := v }

/-- The fields of `struct user_regs_struct` that `DumpRegs` prints (the
registers returned by `PTRACE_GETREGS`). -/
structure URegs where
  rsp : Nat
  rbp : Nat
  rip : Nat
  rax : Nat
  rbx : Nat
  rcx : Nat
  rdx : Nat
  rsi : Nat
  rdi : Nat
  r8 : Nat
  r9 : Nat
  r10 : Nat
  r11 : Nat
  r12 : Nat
  r13 : Nat
  r14 : Nat
  r15 : Nat
deriving DecidableEq

def uregs0 : URegs :=
  { rsp := 0, rbp := 0, rip := 0, rax := 0, rbx := 0, rcx := 0, rdx := 0, rsi := 0
    rdi := 0, r8 := 0, r9 := 0, r10 := 0, r11 := 0, r12 := 0, r13 := 0, r14 := 0
    r15 := 0 }

structure AccessedAddrs where
  code_location : Nat
  block_size : Nat
  accessed_blocks : List Nat
  initial_regs : X64Regs
deriving DecidableEq

def AlignDown (x align : Nat) : Nat := x - x % align

/-- `DumpRegs`: the register dump rendered by the source's `%016x` format
string. -/
def DumpRegs (r : URegs) : List Nat :=
  strBytes "\trsp=" ++ hex16 r.rsp ++ strBytes " rbp=" ++ hex16 r.rbp ++
    strBytes ", rip=" ++ hex16 r.rip ++
  strBytes "\n\trax=" ++ hex16 r.rax ++ strBytes " rbx=" ++ hex16 r.rbx ++
    strBytes ", rcx=" ++ hex16 r.rcx ++
  strBytes "\n\trdx=" ++ hex16 r.rdx ++ strBytes " rsi=" ++ hex16 r.rsi ++
    strBytes ", rdi=" ++ hex16 r.rdi ++
  strBytes "\n\t r8=" ++ hex16 r.r8 ++ strBytes "  r9=" ++ hex16 r.r9 ++
    strBytes ", r10=" ++ hex16 r.r10 ++
  strBytes "\n\tr11=" ++ hex16 r.r11 ++ strBytes " r12=" ++ hex16 r.r12 ++
    strBytes ", r13=" ++ hex16 r.r13 ++
  strBytes "\n\tr14=" ++ hex16 r.r14 ++ strBytes " r15=" ++ hex16 r.r15

/-- Models libc `strsignal` for the signals this program can meet. -/
def strsignal (sig : Nat) : List Nat :=
  if sig = SIGBUS then strBytes "Bus error"
  else if sig = 4 then strBytes "Illegal instruction"
  else if sig = 5 then strBytes "Trace/breakpoint trap"
  else strBytes "Unknown signal " ++ natBytes sig

/-- Models libc `strerror`; the source passes it the *return value* of
`kill` (-1 on failure) rather than `errno`, so the unknown-error rendering is
what actually appears. -/
def strerrorModel (e : Int) : List Nat := strBytes "Unknown error " ++ intBytes e

/-! ## The parent supervisor -/

/-- A decoded `waitpid` status: `WIFSTOPPED`/`WSTOPSIG` on one side, any
non-stop status (exit, signal death) on the other, carrying the raw status
word for the error message. -/
inductive WaitStatus where
  | stopped (sig : Nat)
  | noStop (raw : Int)
deriving DecidableEq

/-- Everything the operating system decides during one trial, gathered as
explicit inputs: the two `waitpid` results, the `PTRACE_GETSIGINFO` fault
address and `PTRACE_GETREGS` registers of the second stop, the result of
`kill`, and the behaviour of the pipe (initial `errno`, the underlying `read`
results, and the frame contents the child transmitted).  `pipe_fail` and
`fork_fail` model `pipe()`/`fork()` failing with an errno before any of that. -/
structure TrialWorld where
  pipe_fail : Option Nat
  fork_fail : Option Nat
  wait1 : WaitStatus
  wait2 : WaitStatus
  si_addr : Nat
  regs : URegs
  kill_result : Int
  read_errno0 : Nat
  pipe_trace : List CallResult
  frame : PipedData
deriving DecidableEq

def msgUnexpectedStatus (raw : Int) : List Nat :=
  strBytes "Child terminated with an unexpected status: " ++ intBytes raw

def msgFpe : List Nat := strBytes "Floating point exception"

def msgUnexpectedSignalBus (sig : Nat) (addr : Nat) (r : URegs) : List Nat :=
  strBytes "Child stopped with unexpected signal: " ++ strsignal sig ++
    strBytes ", address " ++ natBytes addr ++ strBytes "l\n" ++ DumpRegs r

def msgUnexpectedSignal (sig : Nat) (r : URegs) : List Nat :=
  strBytes "Child stopped with unexpected signal: " ++ strsignal sig ++
    strBytes "\n" ++ DumpRegs r

def msgKillFail (e : Int) : List Nat :=
  strBytes "Failed to kill child process: " ++ strerrorModel e

/-- `ParentProcessInner`: wait for the self-raised stop, continue the child,
wait again and classify the second stop.  A segment violation appends the
aligned fault address to `accessed_blocks` unless already present and is ok;
an abort is ok; a floating-point exception is invalid-argument; everything
else is internal. -/
def ParentProcessInner (w : TrialWorld) (aa : AccessedAddrs) :
    Status × AccessedAddrs :=
  match w.wait1 with
  | .noStop raw => (internalStatus (msgUnexpectedStatus raw), aa)
  | .stopped _ =>
    match w.wait2 with
    | .noStop raw => (internalStatus (msgUnexpectedStatus raw), aa)
    | .stopped sig =>
      if sig = SIGSEGV then
        let addr := AlignDown w.si_addr aa.block_size
        if addr ∈ aa.accessed_blocks then (okStatus, aa)
        else (okStatus, { aa with accessed_blocks := aa.accessed_blocks ++ [addr] })
      else if sig = SIGABRT then (okStatus, aa)
      else if sig = SIGFPE then (invalidArgStatus msgFpe, aa)
      else if sig = SIGBUS then
        (internalStatus (msgUnexpectedSignalBus sig w.si_addr w.regs), aa)
      else (internalStatus (msgUnexpectedSignal sig w.regs), aa)

/-- The externally visible cleanup/IPC actions of the parent, in program
order: the `kill(child, SIGKILL)` call, the reaping `waitpid`, each underlying
`read` on the pipe (with the buffer offset it was issued at), and the
`close` of the pipe's read end. -/
inductive PEvent where
  | killEv
  | reapEv
  | readEv (offset : Nat)
  | closeEv
deriving DecidableEq

def isReadEv : PEvent → Bool
  | .readEv _ => true
  | _ => false

/-- `ParentProcess`: run the classification, then unconditionally `kill` the
child (returning internal if the kill call itself fails, without reaping or
touching the pipe), reap it, and only then — and only when the classification
was ok — read the frame from the pipe; a frame with a non-ok code is returned
as a status built from it, otherwise `code_location` is updated from the frame
and ok is returned.  `none` stands for the parent blocking forever in `read`
(the modelled call list ran out). -/
def ParentProcess (w : TrialWorld) (aa : AccessedAddrs) :
    Option (Status × AccessedAddrs × List PEvent) :=
  let r := ParentProcessInner w aa
  if w.kill_result ≠ 0 then
    some (internalStatus (msgKillFail w.kill_result), r.2, [.killEv])
  else if r.1.code ≠ .ok then
    some (r.1, r.2, [.killEv, .reapEv])
  else
    match ReadAll w.read_errno0 w.pipe_trace with
    | none => none
    | some io =>
      match io.1 with
      | .ioErr st =>
        some (st, r.2, [.killEv, .reapEv] ++ io.2.2.map (fun p => PEvent.readEv p.1))
      | .ioOk =>
        let evs := [PEvent.killEv, .reapEv] ++
          io.2.2.map (fun p => PEvent.readEv p.1) ++ [.closeEv]
        if w.frame.status_code ≠ .ok then
          some ({ code := w.frame.status_code,
                  message := cString w.frame.status_message }, r.2, evs)
        else
          some (okStatus, { r.2 with code_location := w.frame.code_address }, evs)

def msgPipeFail : List Nat :=
  strBytes "Failed to open pipe for communication with child process: %s"

def msgForkFail : List Nat := strBytes "Failed to fork"

/-- `ForkAndTestAddresses`: create the pipe, fork, and supervise the child.
Pipe or fork failure surfaces the errno before any trial runs. -/
def ForkAndTestAddresses (w : TrialWorld) (aa : AccessedAddrs) :
    Option (Status × AccessedAddrs × List PEvent) :=
  match w.pipe_fail with
  | some e => some (ErrnoToStatus e msgPipeFail, aa, [])
  | none =>
    match w.fork_fail with
    | some e => some (ErrnoToStatus e msgForkFail, aa, [])
    | none => ParentProcess w aa

/-! ## The child executor -/

/-- The system calls the child issues, in program order. -/
inductive ChildAction where
  | traceMe
  | raiseStop
  | munmapCall (addr len : Nat)
  | mmapBlockCall (addr len : Nat)
  | fillBlock (addr : Nat)
  | mmapCodeCall (addr len : Nat)
  | writeFrameCall
  | copyCode
deriving DecidableEq

/-- The operating system's answers to the child's calls: whether the
best-effort `munmap` succeeds, the `mmap` result for the i-th previously
discovered block (`none` is `MAP_FAILED`, otherwise the address the kernel
chose), the `mmap` result for the code region, the pipe's write behaviour,
and the lengths of the before/after code sequences supplied by the external
assembler. -/
structure ChildWorld where
  munmap_ok : Bool
  block_mmap : Nat → Option Nat
  code_mmap : Option Nat
  write_errno0 : Nat
  write_trace : List CallResult
  before_len : Nat
  after_len : Nat

inductive ChildTerminal where
  | abortedWithFrame (frame : PipedData)
  | abortedPlain
  | jumped (addr : Nat) (frame : PipedData)
deriving DecidableEq

structure ChildOutcome where
  actions : List ChildAction
  terminal : ChildTerminal
deriving DecidableEq

def msgMapPrevFail (addr : Nat) : List Nat :=
  strBytes "mapping previously discovered address " ++ ptrBytes addr ++
    strBytes " failed"

def msgMapPrevWrongAddr (addr : Nat) : List Nat :=
  strBytes "tried to map previously discovered address " ++ ptrBytes addr ++
    strBytes ", but mmap couldn" ++ [39] ++ strBytes "t map this address\n"

/-- The loop over `accessed_blocks`: map each previously discovered block at
its address; `MAP_FAILED` is an internal failure, a mapping that lands
elsewhere is the invalid-argument retry signal, and a successful mapping is
filled with the 0x08-every-fourth-byte pattern. -/
def mapBlocks (block_mmap : Nat → Option Nat) (bs : Nat) :
    List Nat → Nat → List ChildAction × Option Status
  | [], _ => ([], none)
  | b :: rest, i =>
    match block_mmap i with
    | none => ([.mmapBlockCall b bs], some (internalStatus (msgMapPrevFail b)))
    | some a =>
      if a = b then
        let r := mapBlocks block_mmap bs rest (i + 1)
        (.mmapBlockCall b bs :: .fillBlock b :: r.1, r.2)
      else ([.mmapBlockCall b bs], some (invalidArgStatus (msgMapPrevWrongAddr b)))

/-- `ChildProcess`: request tracing and raise the initial stop; unmap the
0x10000 bytes at 0x800000000 best-effort (the result is not even inspected);
map and fill the previously discovered blocks, aborting through
`AbortChildProcess` (frame write then `abort`) on any failure; map the code
region at `code_location` (or the default when it is zero), aborting plainly
on `MAP_FAILED` and accepting any other address the kernel returns; transmit
the ok frame carrying the mapped address; copy the code and jump.  `none`
stands for the child blocking in `write`. -/
def ChildProcess (w : ChildWorld) (basic_block : List Nat) (aa : AccessedAddrs) :
    Option ChildOutcome :=
  let pre := [ChildAction.traceMe, ChildAction.raiseStop,
    ChildAction.munmapCall 0x800000000 0x10000]
  let mb := mapBlocks w.block_mmap aa.block_size aa.accessed_blocks 0
  match mb.2 with
  | some st =>
    match WriteAll w.write_errno0 w.write_trace with
    | none => none
    | some _ =>
      some { actions := pre ++ mb.1 ++ [.writeFrameCall]
             terminal := .abortedWithFrame (AbortFrame st) }
  | none =>
    let total := w.before_len + basic_block.length + w.after_len
    let desired := if aa.code_location = 0 then kDefaultCodeLocation else aa.code_location
    match w.code_mmap with
    | none =>
      some { actions := pre ++ mb.1 ++ [.mmapCodeCall desired total]
             terminal := .abortedPlain }
    | some addr =>
      let frame := { MakePipedData with status_code := StatusCode.ok, code_address := addr }
      match WriteAll w.write_errno0 w.write_trace with
      | none => none
      | some io =>
        match io.1 with
        | .ioErr _ =>
          some { actions := pre ++ mb.1 ++ [.mmapCodeCall desired total, .writeFrameCall]
                 terminal := .abortedPlain }
        | .ioOk =>
          some { actions := pre ++ mb.1 ++
                   [.mmapCodeCall desired total, .writeFrameCall, .copyCode]
                 terminal := .jumped addr frame }

/-! ## The register randomiser and the convergence driver -/

/-- `kValues` from `RandomiseRegs`. -/
def kValues : List Nat := [0, 0x15000, 0x1000000]

def pickValue : Fin 3 → Nat
  | ⟨0, _⟩ => 0
  | ⟨1, _⟩ => 0x15000
  | ⟨2, _⟩ => 0x1000000

/-- `RandomiseRegs`: each of the 16 registers independently takes one of the
three `kValues`; the random stream is an explicit input giving the draw for
each register. -/
def RandomiseRegs (draw : Fin 16 → Fin 3) : X64Regs :=
  { rax := pickValue (draw 0), rbx := pickValue (draw 1), rcx := pickValue (draw 2)
    rdx := pickValue (draw 3), rsi := pickValue (draw 4), rdi := pickValue (draw 5)
    rsp := pickValue (draw 6), rbp := pickValue (draw 7), r8 := pickValue (draw 8)
    r9 := pickValue (draw 9), r10 := pickValue (draw 10), r11 := pickValue (draw 11)
    r12 := pickValue (draw 12), r13 := pickValue (draw 13), r14 := pickValue (draw 14)
    r15 := pickValue (draw 15) }

/-- `kInitialRegValue`. -/
def kInitialRegValue : Nat := 0x15000

def initAA (page_size : Nat) : AccessedAddrs :=
  { code_location := 0
    block_size := page_size
    accessed_blocks := []
    initial_regs := regsAll kInitialRegValue }

inductive DriverResult where
  | success (aa : AccessedAddrs)
  | failure (st : Status)
deriving DecidableEq

/-- The do-while loop of `FindAccessedAddrs`.  `worlds` supplies one
`TrialWorld` per iteration (exhausting it models the loop still running);
`draws` supplies the random draws for each call of `RandomiseRegs`; `n` is the
source's trial counter, incremented after every iteration; `ridx` counts the
`RandomiseRegs` calls made so far.  An invalid-argument trial result is
returned once `n` exceeds 100, and otherwise answered by clearing
`accessed_blocks` and randomising the registers; any other non-ok result is
returned; the loop exits successfully when an iteration leaves the size of
`accessed_blocks` unchanged. -/
def driverLoop (draws : Nat → Fin 16 → Fin 3) :
    List TrialWorld → Nat → Nat → AccessedAddrs → Option DriverResult
  | [], _, _, _ => none
  | w :: ws, n, ridx, aa =>
    let num := aa.accessed_blocks.length
    match ForkAndTestAddresses w aa with
    | none => none
    | some r =>
      if r.1.code = .invalidArgument then
        if 100 < n then some (.failure r.1)
        else
          let aa2 := { r.2.1 with
                       accessed_blocks := ([] : List Nat),
                       initial_regs := RandomiseRegs (draws ridx) }
          if aa2.accessed_blocks.length ≠ num then driverLoop draws ws (n + 1) (ridx + 1) aa2
          else some (.success aa2)
      else if r.1.code ≠ .ok then some (.failure r.1)
      else if r.2.1.accessed_blocks.length ≠ num then driverLoop draws ws (n + 1) ridx r.2.1
      else some (.success r.2.1)

/-- `FindAccessedAddrs`: start from a zero `code_location`, the page size as
`block_size`, no accessed blocks and every register at `kInitialRegValue`,
then iterate trials until the fixed point. -/
def FindAccessedAddrs (page_size : Nat) (worlds : List TrialWorld)
    (draws : Nat → Fin 16 → Fin 3) : Option DriverResult :=
  driverLoop draws worlds 0 0 (initAA page_size)

/-! ## Concrete worlds used by the evaluation theorems and witnesses -/

/-- A random stream that always draws the first of the three values. -/
def draws0 : Nat → Fin 16 → Fin 3 := fun _ _ => 0

/-- The frame an untroubled child transmits. -/
def okFrame : PipedData :=
  { MakePipedData with status_code := StatusCode.ok, code_address := kDefaultCodeLocation }

/-- A trial in which the basic block raises a floating-point exception: the
self-raised stop, then a `SIGFPE` stop.  The parent returns before touching
the pipe, so the pipe inputs are irrelevant. -/
def fpeWorld : TrialWorld :=
  { pipe_fail := none, fork_fail := none, wait1 := .stopped SIGSTOP,
    wait2 := .stopped SIGFPE, si_addr := 0, regs := uregs0, kill_result := 0,
    read_errno0 := 0, pipe_trace := [], frame := MakePipedData }

/-- A trial in which the block faults on the (so far undiscovered) address
`k + 1`: a `SIGSEGV` stop with that fault address, then a clean full-frame
read from the pipe. -/
def segvWorld (k : Nat) : TrialWorld :=
  { pipe_fail := none, fork_fail := none, wait1 := .stopped SIGSTOP,
    wait2 := .stopped SIGSEGV, si_addr := k + 1, regs := uregs0, kill_result := 0,
    read_errno0 := 0, pipe_trace := [.success kPipedDataSize], frame := okFrame }

/-- A trial in which the block runs to completion: a `SIGABRT` stop from the
after-block code, then a clean full-frame read. -/
def abortWorld : TrialWorld :=
  { pipe_fail := none, fork_fail := none, wait1 := .stopped SIGSTOP,
    wait2 := .stopped SIGABRT, si_addr := 0, regs := uregs0, kill_result := 0,
    read_errno0 := 0, pipe_trace := [.success kPipedDataSize], frame := okFrame }

/-- 101 trials that each discover a fresh block, followed by one
floating-point-exception trial. -/
def sched102 : List TrialWorld := (List.range 101).map segvWorld ++ [fpeWorld]

/-- A child world whose code-region `mmap` fails (and whose block `mmap`
would too, were any block mapped). -/
def childWorld0 : ChildWorld :=
  { munmap_ok := true, block_mmap := fun _ => none, code_mmap := none,
    write_errno0 := 0, write_trace := [], before_len := 10, after_len := 5 }

/-! ## Helper lemmas -/

theorem alignDown_dvd (x a : Nat) : a ∣ AlignDown x a := by
  refine ⟨x / a, ?_⟩
  have h := Nat.div_add_mod x a
  unfold AlignDown
  omega

theorem alignDown_spec (w : TrialWorld) (aa : AccessedAddrs) :
    AlignDown w.si_addr aa.block_size = w.si_addr - w.si_addr % aa.block_size := rfl

/-- `ParentProcessInner` only ever appends at most one element — a fresh
aligned fault address — to `accessed_blocks`, and changes nothing else. -/
theorem inner_frame (w : TrialWorld) (aa : AccessedAddrs) :
    ∃ t, (ParentProcessInner w aa).2 =
        { aa with accessed_blocks := aa.accessed_blocks ++ t } ∧
      t.length ≤ 1 ∧
      ∀ b ∈ t, b = AlignDown w.si_addr aa.block_size ∧ b ∉ aa.accessed_blocks := by
  unfold ParentProcessInner
  cases hw1 : w.wait1 with
  | noStop raw => exact ⟨[], by simp, by simp, by simp⟩
  | stopped s1 =>
    cases hw2 : w.wait2 with
    | noStop raw => exact ⟨[], by simp, by simp, by simp⟩
    | stopped s2 =>
      by_cases h1 : s2 = SIGSEGV
      · by_cases h2 : AlignDown w.si_addr aa.block_size ∈ aa.accessed_blocks
        · exact ⟨[], by simp [h1, h2, SIGSEGV], by simp, by simp⟩
        · refine ⟨[AlignDown w.si_addr aa.block_size],
            by simp [h1, h2, SIGSEGV], by simp, ?_⟩
          simpa using h2
      · by_cases h2 : s2 = SIGABRT
        · exact ⟨[], by simp [h1, h2, SIGSEGV, SIGABRT], by simp, by simp⟩
        · by_cases h3 : s2 = SIGFPE
          · exact ⟨[], by simp [h1, h2, h3, SIGSEGV, SIGABRT, SIGFPE], by simp, by simp⟩
          · by_cases h4 : s2 = SIGBUS
            · exact ⟨[], by simp [h1, h2, h3, h4, SIGSEGV, SIGABRT, SIGFPE, SIGBUS],
                by simp, by simp⟩
            · exact ⟨[], by simp [h1, h2, h3, h4], by simp, by simp⟩

theorem errnoToStatusCode_ne_ok (e : Nat) : ErrnoToStatusCode e ≠ .ok := by
  unfold ErrnoToStatusCode
  split
  · simp
  · split
    · simp
    · split
      · simp
      · split <;> simp

/-- A failing `ReadAll` never reports an ok status. -/
theorem readAllGo_ioErr_ne_ok (size : Nat) :
    ∀ (calls : List CallResult) (offset errno : Nat) (log : List (Nat × CallResult))
      (st : Status) (b : Bool) (l : List (Nat × CallResult)),
      ReadAllGo size offset errno calls log = some (.ioErr st, b, l) →
      st.code ≠ .ok := by
  intro calls
  induction calls with
  | nil => intro offset errno log st b l h; simp [ReadAllGo] at h
  | cons c rest ih =>
    intro offset errno log st b l h
    unfold ReadAllGo at h
    dsimp only at h
    split at h
    · exact ih _ _ _ _ _ _ h
    · split at h
      · simp only [Option.some.injEq, Prod.mk.injEq, IoResult.ioErr.injEq] at h
        obtain ⟨hst, -⟩ := h
        subst hst
        simp [ErrnoToStatus, errnoToStatusCode_ne_ok]
      · split at h
        · simp only [Option.some.injEq, Prod.mk.injEq, IoResult.ioErr.injEq] at h
          obtain ⟨hst, -⟩ := h
          subst hst
          simp [internalStatus]
        · split at h
          · exact ih _ _ _ _ _ _ h
          · split at h
            · simp at h
            · simp only [Option.some.injEq, Prod.mk.injEq, IoResult.ioErr.injEq] at h
              obtain ⟨hst, -⟩ := h
              subst hst
              simp [internalStatus]

/-- A successful `ReadAll` always reports that it closed the descriptor. -/
theorem readAllGo_ioOk_closed (size : Nat) :
    ∀ (calls : List CallResult) (offset errno : Nat) (log : List (Nat × CallResult))
      (b : Bool) (l : List (Nat × CallResult)),
      ReadAllGo size offset errno calls log = some (.ioOk, b, l) → b = true := by
  intro calls
  induction calls with
  | nil => intro offset errno log b l h; simp [ReadAllGo] at h
  | cons c rest ih =>
    intro offset errno log b l h
    unfold ReadAllGo at h
    dsimp only at h
    split at h
    · exact ih _ _ _ _ _ h
    · split at h
      · simp at h
      · split at h
        · simp at h
        · split at h
          · exact ih _ _ _ _ _ h
          · split at h
            · simp only [Option.some.injEq, Prod.mk.injEq] at h
              exact h.2.1.symm
            · simp at h

/-- One full supervised trial only ever appends at most one fresh aligned
fault address to `accessed_blocks`, and leaves `block_size` and
`initial_regs` untouched. -/
theorem parent_frame (w : TrialWorld) (aa : AccessedAddrs)
    (res : Status × AccessedAddrs × List PEvent) (h : ParentProcess w aa = some res) :
    ∃ t, res.2.1.accessed_blocks = aa.accessed_blocks ++ t ∧
      res.2.1.block_size = aa.block_size ∧
      res.2.1.initial_regs = aa.initial_regs ∧
      t.length ≤ 1 ∧
      ∀ b ∈ t, b = AlignDown w.si_addr aa.block_size ∧ b ∉ aa.accessed_blocks := by
  obtain ⟨t, ht, hlen, hmem⟩ := inner_frame w aa
  refine ⟨t, ?_⟩
  unfold ParentProcess at h
  dsimp only at h
  split at h
  · simp only [Option.some.injEq] at h
    subst h
    exact ⟨by simp [ht], by simp [ht], by simp [ht], hlen, hmem⟩
  · split at h
    · simp only [Option.some.injEq] at h
      subst h
      exact ⟨by simp [ht], by simp [ht], by simp [ht], hlen, hmem⟩
    · split at h
      · cases h
      · split at h
        · simp only [Option.some.injEq] at h
          subst h
          exact ⟨by simp [ht], by simp [ht], by simp [ht], hlen, hmem⟩
        · split at h
          · simp only [Option.some.injEq] at h
            subst h
            exact ⟨by simp [ht], by simp [ht], by simp [ht], hlen, hmem⟩
          · simp only [Option.some.injEq] at h
            subst h
            exact ⟨by simp [ht], by simp [ht], by simp [ht], hlen, hmem⟩

/-- `ForkAndTestAddresses` has the same frame condition (the pipe/fork
failure paths leave the record untouched). -/
theorem fork_frame (w : TrialWorld) (aa : AccessedAddrs)
    (res : Status × AccessedAddrs × List PEvent)
    (h : ForkAndTestAddresses w aa = some res) :
    ∃ t, res.2.1.accessed_blocks = aa.accessed_blocks ++ t ∧
      res.2.1.block_size = aa.block_size ∧
      res.2.1.initial_regs = aa.initial_regs ∧
      t.length ≤ 1 ∧
      ∀ b ∈ t, b = AlignDown w.si_addr aa.block_size ∧ b ∉ aa.accessed_blocks := by
  unfold ForkAndTestAddresses at h
  split at h
  · simp only [Option.some.injEq] at h
    subst h
    exact ⟨[], by simp, by simp, by simp, by simp, by simp⟩
  · split at h
    · simp only [Option.some.injEq] at h
      subst h
      exact ⟨[], by simp, by simp, by simp, by simp, by simp⟩
    · exact parent_frame w aa res h

/-- The invariant of claim C4: every accessed block is a multiple of the
block size and no block is recorded twice. -/
def BlocksInv (aa : AccessedAddrs) : Prop :=
  (∀ b ∈ aa.accessed_blocks, aa.block_size ∣ b) ∧ aa.accessed_blocks.Nodup

/-- Appending at most one fresh aligned address preserves the invariant. -/
theorem inv_step (aa a2 : AccessedAddrs) (x : Nat)
    (hfr : ∃ t, a2.accessed_blocks = aa.accessed_blocks ++ t ∧
      a2.block_size = aa.block_size ∧ a2.initial_regs = aa.initial_regs ∧
      t.length ≤ 1 ∧ ∀ b ∈ t, b = AlignDown x aa.block_size ∧ b ∉ aa.accessed_blocks)
    (hinv : BlocksInv aa) : BlocksInv a2 := by
  obtain ⟨t, ht, hbs, -, hlen, hmem⟩ := hfr
  obtain ⟨hdvd, hnodup⟩ := hinv
  constructor
  · intro b hb
    rw [ht, List.mem_append] at hb
    rw [hbs]
    rcases hb with hb | hb
    · exact hdvd b hb
    · obtain ⟨hbeq, -⟩ := hmem b hb
      rw [hbeq]
      exact alignDown_dvd _ _
  · rw [ht]
    match t, hlen with
    | [], _ => simpa using hnodup
    | [b], _ =>
      obtain ⟨-, hnotin⟩ := hmem b (by simp)
      simp [List.nodup_append, hnodup, hnotin]

theorem fork_inv (w : TrialWorld) (aa : AccessedAddrs)
    (res : Status × AccessedAddrs × List PEvent)
    (h : ForkAndTestAddresses w aa = some res) (hinv : BlocksInv aa) :
    BlocksInv res.2.1 :=
  inv_step aa res.2.1 w.si_addr (fork_frame w aa res h) hinv

/-- The driver preserves `BlocksInv` (and the block size) from any start
state to any successful result. -/
theorem driver_inv (draws : Nat → Fin 16 → Fin 3) :
    ∀ (ws : List TrialWorld) (n ridx : Nat) (aa out : AccessedAddrs),
      BlocksInv aa → driverLoop draws ws n ridx aa = some (.success out) →
      BlocksInv out ∧ out.block_size = aa.block_size := by
  intro ws
  induction ws with
  | nil => intro n ridx aa out hinv h; simp [driverLoop] at h
  | cons w ws ih =>
    intro n ridx aa out hinv h
    unfold driverLoop at h
    dsimp only at h
    split at h
    · cases h
    · rename_i res hres
      split at h
      · split at h
        · simp at h
        · split at h
          · have hfr := fork_frame w aa res hres
            obtain ⟨t, -, hbs, -, -, -⟩ := hfr
            have h2 := ih (n + 1) (ridx + 1) _ out ⟨by simp, by simp⟩ h
            exact ⟨h2.1, by rw [h2.2]; simpa using hbs⟩
          · simp only [Option.some.injEq, DriverResult.success.injEq] at h
            subst h
            obtain ⟨t, -, hbs, -, -, -⟩ := fork_frame w aa res hres
            exact ⟨⟨by simp, by simp⟩, by simpa using hbs⟩
      · split at h
        · simp at h
        · have hinv2 := fork_inv w aa res hres hinv
          obtain ⟨t, -, hbs, -, -, -⟩ := fork_frame w aa res hres
          split at h
          · have h2 := ih (n + 1) ridx _ out hinv2 h
            exact ⟨h2.1, by rw [h2.2]; exact hbs⟩
          · simp only [Option.some.injEq, DriverResult.success.injEq] at h
            subst h
            exact ⟨hinv2, hbs⟩

/-- An invalid-argument status escapes the driver only through the `n > 100`
branch, which needs at least 102 trial iterations from a start counter of
`n`. -/
theorem driver_invalid_bound (draws : Nat → Fin 16 → Fin 3) :
    ∀ (ws : List TrialWorld) (n ridx : Nat) (aa : AccessedAddrs) (st : Status),
      driverLoop draws ws n ridx aa = some (.failure st) →
      st.code = .invalidArgument → 102 ≤ n + ws.length := by
  intro ws
  induction ws with
  | nil => intro n ridx aa st h hst; simp [driverLoop] at h
  | cons w ws ih =>
    intro n ridx aa st h hst
    unfold driverLoop at h
    dsimp only at h
    split at h
    · cases h
    · rename_i res hres
      split at h
      · split at h
        · rename_i hn
          simp only [List.length_cons]
          omega
        · split at h
          · have := ih (n + 1) (ridx + 1) _ st h hst
            simp only [List.length_cons]
            omega
          · simp at h
      · split at h
        · rename_i hinval hne
          simp only [Option.some.injEq, DriverResult.failure.injEq] at h
          subst h
          exact absurd hst hinval
        · split at h
          · have := ih (n + 1) ridx _ st h hst
            simp only [List.length_cons]
            omega
          · simp at h

/-- Exhaustive description of the five exit shapes of `ParentProcess`:
kill failure, classification failure, blocking read, failing read, and a
fully read frame (ok or carrying the child's failure). -/
theorem parent_shape (w : TrialWorld) (aa : AccessedAddrs) :
    (w.kill_result ≠ 0 ∧
      ParentProcess w aa = some (internalStatus (msgKillFail w.kill_result),
        (ParentProcessInner w aa).2, [.killEv]))
    ∨ (w.kill_result = 0 ∧ (ParentProcessInner w aa).1.code ≠ .ok ∧
      ParentProcess w aa = some ((ParentProcessInner w aa).1,
        (ParentProcessInner w aa).2, [.killEv, .reapEv]))
    ∨ (w.kill_result = 0 ∧ (ParentProcessInner w aa).1.code = .ok ∧
      ReadAll w.read_errno0 w.pipe_trace = none ∧ ParentProcess w aa = none)
    ∨ (∃ st b log, w.kill_result = 0 ∧ (ParentProcessInner w aa).1.code = .ok ∧
      ReadAll w.read_errno0 w.pipe_trace = some (.ioErr st, b, log) ∧
      ParentProcess w aa = some (st, (ParentProcessInner w aa).2,
        [.killEv, .reapEv] ++ log.map (fun p => PEvent.readEv p.1)))
    ∨ (∃ log, w.kill_result = 0 ∧ (ParentProcessInner w aa).1.code = .ok ∧
      ReadAll w.read_errno0 w.pipe_trace = some (.ioOk, true, log) ∧
      ((w.frame.status_code ≠ .ok ∧
        ParentProcess w aa = some (Status.mk w.frame.status_code
            (cString w.frame.status_message), (ParentProcessInner w aa).2,
          [.killEv, .reapEv] ++ log.map (fun p => PEvent.readEv p.1) ++ [.closeEv]))
       ∨ (w.frame.status_code = .ok ∧
        ParentProcess w aa = some (okStatus,
          { (ParentProcessInner w aa).2 with code_location := w.frame.code_address },
          [.killEv, .reapEv] ++ log.map (fun p => PEvent.readEv p.1) ++ [.closeEv])))) := by
  by_cases hk : w.kill_result ≠ 0
  · exact Or.inl ⟨hk, by unfold ParentProcess; rw [if_pos hk]⟩
  · rw [not_not] at hk
    by_cases hok : (ParentProcessInner w aa).1.code ≠ .ok
    · refine Or.inr (Or.inl ⟨hk, hok, ?_⟩)
      unfold ParentProcess
      rw [if_neg (by simpa using hk), if_pos hok]
    · rw [not_not] at hok
      cases hread : ReadAll w.read_errno0 w.pipe_trace with
      | none =>
        refine Or.inr (Or.inr (Or.inl ⟨hk, hok, rfl, ?_⟩))
        unfold ParentProcess
        rw [if_neg (by simpa using hk), if_neg (by simpa using hok), hread]
      | some io =>
        obtain ⟨io1, iob, iolog⟩ := io
        cases io1 with
        | ioErr st =>
          refine Or.inr (Or.inr (Or.inr (Or.inl ⟨st, iob, iolog, hk, hok, rfl, ?_⟩)))
          unfold ParentProcess
          rw [if_neg (by simpa using hk), if_neg (by simpa using hok), hread]
        | ioOk =>
          have hc : iob = true :=
            readAllGo_ioOk_closed kPipedDataSize w.pipe_trace 0 w.read_errno0 [] iob iolog hread
          subst hc
          refine Or.inr (Or.inr (Or.inr (Or.inr ⟨iolog, hk, hok, rfl, ?_⟩)))
          by_cases hf : w.frame.status_code ≠ .ok
          · refine Or.inl ⟨hf, ?_⟩
            unfold ParentProcess
            rw [if_neg (by simpa using hk), if_neg (by simpa using hok), hread]
            dsimp only
            rw [if_pos hf]
          · rw [not_not] at hf
            refine Or.inr ⟨hf, ?_⟩
            unfold ParentProcess
            rw [if_neg (by simpa using hk), if_neg (by simpa using hok), hread]
            dsimp only
            rw [if_neg (by simpa using hf)]

/-! ## Claim theorems -/

/-- Claim C1 (code bug, evaluated): for a basic block whose every trial stops
with a floating-point exception (the schedule consists only of `fpeWorld`),
`FindAccessedAddrs` does NOT return invalid-argument after at most 101 trials
— it returns a *successful* `AccessedAddrs` after the very first trial,
because the invalid-argument branch clears the already empty `accessed_blocks`
and the do-while condition `size() != num_accessed_blocks` then exits the
loop.  The returned record even has `code_location = 0` and the
freshly randomised registers that were never tried. -/
theorem fpe_block_returns_success :
    FindAccessedAddrs 4096 [fpeWorld] draws0 =
      some (.success { code_location := 0, block_size := 4096,
                       accessed_blocks := [], initial_regs := regsAll 0 }) := by
  decide

/-- Claim C3 (code bug, evaluated): the retry loop checks `errno` without
checking that the call failed.  In the first run the initial `write` fails
with `EINTR`, the re-issued call succeeds and transfers the entire frame, but
`errno` still holds `EINTR`, so the loop issues a *third* call at the same
offset 0 and surfaces its `EBADF` failure — after the frame was already fully
written.  The second run shows the same full-size write completing cleanly
when no stale retryable `errno` is present, isolating the defect. -/
theorem writeAll_reissues_call_after_success :
    WriteAll 0 [.failure EINTR, .success kPipedDataSize, .failure EBADF] =
      some (.ioErr (ErrnoToStatus EBADF msgWriteFail),
        [(0, .failure EINTR), (0, .success kPipedDataSize), (0, .failure EBADF)])
    ∧ WriteAll 0 [.success kPipedDataSize] =
        some (.ioOk, [(0, .success kPipedDataSize)]) := by
  decide

/-- Claim C8: the frame emitted by a failing child carries the failure's
status code; its message field is the failure message truncated to
`capacity - 1` bytes followed by zeros (hence NUL-terminated at the
truncation point and of full capacity), and the padding and the
`code_address` bytes are all zero. -/
theorem abort_frame_contract (st : Status) :
    (AbortFrame st).status_code = st.code
    ∧ (AbortFrame st).status_message =
        st.message.take (min st.message.length (kMessageCapacity - 1)) ++
          List.replicate (kMessageCapacity - min st.message.length (kMessageCapacity - 1)) 0
    ∧ (AbortFrame st).status_message.length = kMessageCapacity
    ∧ (AbortFrame st).status_message[min st.message.length (kMessageCapacity - 1)]? = some 0
    ∧ (AbortFrame st).pad = List.replicate 4 0
    ∧ (AbortFrame st).code_address = 0 := by
  have hml : min st.message.length (kMessageCapacity - 1) ≤ st.message.length :=
    Nat.min_le_left _ _
  have hmlcap : min st.message.length (kMessageCapacity - 1) ≤ kMessageCapacity - 1 :=
    Nat.min_le_right _ _
  have htl : (st.message.take (min st.message.length (kMessageCapacity - 1))).length =
      min st.message.length (kMessageCapacity - 1) := by
    rw [List.length_take]
    omega
  have hmsg : (AbortFrame st).status_message =
      st.message.take (min st.message.length (kMessageCapacity - 1)) ++
        List.replicate (kMessageCapacity - min st.message.length (kMessageCapacity - 1)) 0 := by
    unfold AbortFrame overlayFrom MakePipedData
    dsimp only
    rw [htl, List.drop_replicate]
  refine ⟨rfl, hmsg, ?_, ?_, rfl, rfl⟩
  · rw [hmsg, List.length_append, htl, List.length_replicate]
    have : min st.message.length (kMessageCapacity - 1) ≤ kMessageCapacity := by
      unfold kMessageCapacity at hmlcap ⊢
      omega
    omega
  · rw [hmsg, List.getElem?_append_right (le_of_eq htl), htl, Nat.sub_self,
      List.getElem?_replicate]
    have : 0 < kMessageCapacity - min st.message.length (kMessageCapacity - 1) := by
      unfold kMessageCapacity at hmlcap ⊢
      omega
    simp [this]

/-- Claim C4: every `AccessedAddrs` returned successfully by
`FindAccessedAddrs` has only multiples of `block_size` in `accessed_blocks`,
with no element occurring twice; and every mutation the parent supervisor
performs on `accessed_blocks` preserves this invariant. -/
theorem accessed_blocks_aligned_and_deduped :
    (∀ (page_size : Nat) (worlds : List TrialWorld) (draws : Nat → Fin 16 → Fin 3)
       (out : AccessedAddrs),
       FindAccessedAddrs page_size worlds draws = some (.success out) →
       BlocksInv out ∧ out.block_size = page_size)
    ∧ (∀ (w : TrialWorld) (aa : AccessedAddrs)
        (res : Status × AccessedAddrs × List PEvent),
       ParentProcess w aa = some res → BlocksInv aa → BlocksInv res.2.1) := by
  constructor
  · intro page_size worlds draws out h
    have h2 := driver_inv draws worlds 0 0 (initAA page_size) out
      ⟨by simp [initAA], by simp [initAA]⟩ h
    exact ⟨h2.1, by rw [h2.2]; rfl⟩
  · intro w aa res h hinv
    exact inv_step aa res.2.1 w.si_addr (parent_frame w aa res h) hinv

def resAbort : AccessedAddrs :=
  { code_location := kDefaultCodeLocation, block_size := 4096,
    accessed_blocks := [], initial_regs := regsAll kInitialRegValue }

/-- Witness for the invariant theorem at a concrete run: a single trial that
ends in `SIGABRT` converges immediately. -/
theorem accessed_blocks_aligned_and_deduped_witness :
    FindAccessedAddrs 4096 [abortWorld] draws0 = some (.success resAbort)
    ∧ (BlocksInv resAbort ∧ resAbort.block_size = 4096) :=
  ⟨by decide,
   accessed_blocks_aligned_and_deduped.1 4096 [abortWorld] draws0 resAbort (by decide)⟩

/-- Claim C10: one trial mutates `accessed_blocks` only by appending at most
one element at the end — existing elements are never removed, reordered or
rewritten — and leaves `block_size` and `initial_regs` unchanged, so the size
of `accessed_blocks` changes by exactly zero or one. -/
theorem trial_appends_at_most_one_block (w : TrialWorld) (aa : AccessedAddrs)
    (res : Status × AccessedAddrs × List PEvent)
    (h : ForkAndTestAddresses w aa = some res) :
    (∃ t, res.2.1.accessed_blocks = aa.accessed_blocks ++ t ∧ t.length ≤ 1)
    ∧ res.2.1.block_size = aa.block_size
    ∧ res.2.1.initial_regs = aa.initial_regs
    ∧ (res.2.1.accessed_blocks.length = aa.accessed_blocks.length
       ∨ res.2.1.accessed_blocks.length = aa.accessed_blocks.length + 1) := by
  obtain ⟨t, ht, hbs, hregs, hlen, -⟩ := fork_frame w aa res h
  refine ⟨⟨t, ht, hlen⟩, hbs, hregs, ?_⟩
  rw [ht, List.length_append]
  omega

def trialRes0 : Status × AccessedAddrs × List PEvent :=
  (okStatus,
   { code_location := kDefaultCodeLocation, block_size := 1,
     accessed_blocks := [1], initial_regs := regsAll kInitialRegValue },
   [.killEv, .reapEv, .readEv 0, .closeEv])

/-- Specification of the second-stop classification for claim C6: a segment
violation appends the aligned fault address read from the signal information
unless it is already recorded, and returns ok; an abort returns ok and adds
nothing. -/
def SegvAbrtSpec (w : TrialWorld) (aa : AccessedAddrs) : Prop :=
  (w.wait2 = .stopped SIGSEGV →
    ParentProcessInner w aa =
      (okStatus,
        if AlignDown w.si_addr aa.block_size ∈ aa.accessed_blocks then aa
        else { aa with accessed_blocks :=
                 aa.accessed_blocks ++ [AlignDown w.si_addr aa.block_size] }))
  ∧ (w.wait2 = .stopped SIGABRT → ParentProcessInner w aa = (okStatus, aa))

/-- Claim C6: when the child's second stop is a segment violation the parent
aligns the fault address down to `block_size`, appends it only if absent, and
returns ok; when the second stop is an abort it returns ok without adding
anything. -/
theorem segv_appends_abort_adds_nothing (w : TrialWorld) (aa : AccessedAddrs)
    (s1 : Nat) (h1 : w.wait1 = .stopped s1) : SegvAbrtSpec w aa := by
  constructor
  · intro h2
    unfold ParentProcessInner
    rw [h1, h2]
    dsimp only
    by_cases hmem : AlignDown w.si_addr aa.block_size ∈ aa.accessed_blocks <;>
      simp [hmem]
  · intro h2
    unfold ParentProcessInner
    rw [h1, h2]
    simp [SIGSEGV, SIGABRT]

/-- Witness for the classification theorem at a concrete faulting trial. -/
theorem segv_appends_abort_adds_nothing_witness :
    (segvWorld 0).wait1 = .stopped SIGSTOP
    ∧ SegvAbrtSpec (segvWorld 0) (initAA 4096) :=
  ⟨by decide,
   segv_appends_abort_adds_nothing (segvWorld 0) (initAA 4096) SIGSTOP (by decide)⟩

def fpeStatus : Status := invalidArgStatus msgFpe

set_option maxRecDepth 400000 in
/-- Claim C5 (counterexample): the trial counter `n` is incremented after
*every* iteration, so successful trials do consume the budget that the claim
reserves for fixable-failure retries.  In this schedule the first 101 trials
all succeed (each discovering a fresh block) and the 102nd is the *first*
fixable failure, yet the driver returns it as invalid-argument instead of
clearing and randomising. -/
theorem retry_budget_spent_by_successful_trials :
    FindAccessedAddrs 1 sched102 draws0 = some (.failure fpeStatus)
    ∧ sched102.countP (fun w => decide (w.wait2 = .stopped SIGFPE)) = 1
    ∧ sched102.countP (fun w => decide (w.wait2 = .stopped SIGSEGV)) = 101 := by
  constructor
  · decide
  · constructor <;> decide

/-- Claim C5 (amended): the driver keeps a single counter of completed trials
of any outcome; an invalid-argument result is returned once that counter
exceeds 100 — so an invalid-argument return needs at least 102 supplied
trials — and is otherwise answered by clearing `accessed_blocks` and
randomising the registers (after which, when the cleared set was already
empty, the do-while condition exits and the driver returns success). -/
theorem invalid_argument_exit_semantics :
    (∀ (page_size : Nat) (worlds : List TrialWorld) (draws : Nat → Fin 16 → Fin 3)
       (st : Status),
       FindAccessedAddrs page_size worlds draws = some (.failure st) →
       st.code = .invalidArgument → 102 ≤ worlds.length)
    ∧ (∀ (draws : Nat → Fin 16 → Fin 3) (w : TrialWorld) (ws : List TrialWorld)
        (n ridx : Nat) (aa : AccessedAddrs)
        (res : Status × AccessedAddrs × List PEvent),
       ForkAndTestAddresses w aa = some res → res.1.code = .invalidArgument →
       n ≤ 100 → aa.accessed_blocks = [] →
       driverLoop draws (w :: ws) n ridx aa =
         some (.success { res.2.1 with
                          accessed_blocks := ([] : List Nat),
                          initial_regs := RandomiseRegs (draws ridx) })) := by
  constructor
  · intro page_size worlds draws st h hst
    have hb := driver_invalid_bound draws worlds 0 0 (initAA page_size) st h hst
    omega
  · intro draws w ws n ridx aa res hres hcode hn hempty
    unfold driverLoop
    dsimp only
    rw [hres]
    dsimp only
    rw [if_pos hcode, if_neg (by omega)]
    simp [hempty]

/-- Witness for the amended driver semantics: a first-trial floating-point
exception with an empty block set makes the driver return success at once. -/
theorem invalid_argument_exit_semantics_witness :
    ForkAndTestAddresses fpeWorld (initAA 4096) =
      some (fpeStatus, initAA 4096, [PEvent.killEv, PEvent.reapEv])
    ∧ fpeStatus.code = .invalidArgument
    ∧ (0 : Nat) ≤ 100
    ∧ (initAA 4096).accessed_blocks = []
    ∧ driverLoop draws0 [fpeWorld] 0 0 (initAA 4096) =
        some (.success { initAA 4096 with
                         accessed_blocks := ([] : List Nat),
                         initial_regs := RandomiseRegs (draws0 0) }) :=
  ⟨by decide, by decide, by decide, by decide,
   invalid_argument_exit_semantics.2 draws0 fpeWorld [] 0 0 (initAA 4096)
     (fpeStatus, initAA 4096, [PEvent.killEv, PEvent.reapEv])
     (by decide) (by decide) (by decide) (by decide)⟩

/-- Witness for the single-trial frame condition at a concrete faulting
trial. -/
theorem trial_appends_at_most_one_block_witness :
    ForkAndTestAddresses (segvWorld 0) (initAA 1) = some trialRes0
    ∧ ((∃ t, trialRes0.2.1.accessed_blocks = (initAA 1).accessed_blocks ++ t ∧ t.length ≤ 1)
       ∧ trialRes0.2.1.block_size = (initAA 1).block_size
       ∧ trialRes0.2.1.initial_regs = (initAA 1).initial_regs
       ∧ (trialRes0.2.1.accessed_blocks.length = (initAA 1).accessed_blocks.length
          ∨ trialRes0.2.1.accessed_blocks.length = (initAA 1).accessed_blocks.length + 1)) :=
  ⟨by decide, trial_appends_at_most_one_block (segvWorld 0) (initAA 1) trialRes0 (by decide)⟩

/-- The cleanup behaviour `ParentProcess` actually has, for claim C2: the
kill call is always the first action; the reap follows whenever the kill
succeeded; but the pipe is read and closed only when the kill succeeded, the
stop was classified ok, and the whole frame arrived — on every other exit
path the function returns with the pipe untouched. -/
def CleanupSpec (w : TrialWorld) (aa : AccessedAddrs) (evs : List PEvent) : Prop :=
  evs.get? 0 = some PEvent.killEv
  ∧ (w.kill_result = 0 → evs.get? 1 = some PEvent.reapEv)
  ∧ (PEvent.closeEv ∈ evs ↔
      (w.kill_result = 0 ∧ (ParentProcessInner w aa).1.code = .ok ∧
        ∃ log, ReadAll w.read_errno0 w.pipe_trace = some (.ioOk, true, log)))
  ∧ ((ParentProcessInner w aa).1.code ≠ .ok →
      ∀ e ∈ evs, e = PEvent.killEv ∨ e = PEvent.reapEv)

/-- Claim C2 (amended): on every exit path the child is killed first and
reaped when the kill succeeds, but the pipe is drained and closed only on the
fully successful read path; error classifications return with the pipe
unread. -/
theorem cleanup_on_exit_paths (w : TrialWorld) (aa : AccessedAddrs) (st : Status)
    (aa1 : AccessedAddrs) (evs : List PEvent)
    (h : ParentProcess w aa = some (st, aa1, evs)) : CleanupSpec w aa evs := by
  rcases parent_shape w aa with ⟨hk, hp⟩ | ⟨hk, hok, hp⟩ | ⟨hk, hok, hr, hp⟩
    | ⟨st2, b2, log2, hk, hok, hr, hp⟩ | ⟨log2, hk, hok, hr, hrest⟩
  · rw [hp] at h
    simp only [Option.some.injEq, Prod.mk.injEq] at h
    obtain ⟨-, -, hevs⟩ := h
    subst hevs
    refine ⟨rfl, fun h0 => absurd h0 hk, ?_, ?_⟩
    · refine iff_of_false (by simp) ?_
      rintro ⟨h0, -⟩
      exact hk h0
    · intro _ e he
      simp only [List.mem_singleton] at he
      exact Or.inl he
  · rw [hp] at h
    simp only [Option.some.injEq, Prod.mk.injEq] at h
    obtain ⟨-, -, hevs⟩ := h
    subst hevs
    refine ⟨rfl, fun _ => rfl, ?_, ?_⟩
    · refine iff_of_false (by simp) ?_
      rintro ⟨-, hcode, -⟩
      exact hok hcode
    · intro _ e he
      simp only [List.mem_cons, List.mem_singleton, List.not_mem_nil, or_false] at he
      exact he
  · rw [hp] at h
    cases h
  · rw [hp] at h
    simp only [Option.some.injEq, Prod.mk.injEq] at h
    obtain ⟨-, -, hevs⟩ := h
    subst hevs
    refine ⟨rfl, fun _ => rfl, ?_, fun hne => absurd hok hne⟩
    refine iff_of_false ?_ ?_
    · simp [List.mem_map]
    · rintro ⟨-, -, log3, hl⟩
      rw [hr] at hl
      simp at hl
  · have hevs2 : ParentProcess w aa = some (st, aa1, evs) → evs =
        [PEvent.killEv, .reapEv] ++ log2.map (fun p => PEvent.readEv p.1) ++ [.closeEv] := by
      intro h2
      rcases hrest with ⟨-, hp⟩ | ⟨-, hp⟩ <;>
      · rw [hp] at h2
        simp only [Option.some.injEq, Prod.mk.injEq] at h2
        exact h2.2.2.symm
    have hevs := hevs2 h
    subst hevs
    refine ⟨rfl, fun _ => rfl, ?_, fun hne => absurd hok hne⟩
    refine iff_of_true (by simp) ⟨hk, hok, log2, hr⟩

/-- Claim C2 (counterexample): on the floating-point-exception exit path the
parent kills and reaps the child but returns with the pipe never read and
never closed, refuting the claim that every exit path drains and closes the
pipe before returning. -/
theorem error_path_leaves_pipe_unread :
    ParentProcess fpeWorld (initAA 4096) =
      some (fpeStatus, initAA 4096, [PEvent.killEv, PEvent.reapEv])
    ∧ PEvent.closeEv ∉ [PEvent.killEv, PEvent.reapEv]
    ∧ ([PEvent.killEv, PEvent.reapEv].all (fun e => !isReadEv e)) = true := by
  refine ⟨by decide, by decide, by decide⟩

/-- Witness for the cleanup theorem at the same concrete error path. -/
theorem cleanup_on_exit_paths_witness :
    ParentProcess fpeWorld (initAA 4096) =
      some (fpeStatus, initAA 4096, [PEvent.killEv, PEvent.reapEv])
    ∧ CleanupSpec fpeWorld (initAA 4096) [PEvent.killEv, PEvent.reapEv] :=
  ⟨by decide,
   cleanup_on_exit_paths fpeWorld (initAA 4096) fpeStatus (initAA 4096)
     [PEvent.killEv, PEvent.reapEv] (by decide)⟩

theorem inner_code_location (w : TrialWorld) (aa : AccessedAddrs) :
    (ParentProcessInner w aa).2.code_location = aa.code_location := by
  obtain ⟨t, ht, -, -⟩ := inner_frame w aa
  rw [ht]

/-- The frame/ordering contract of `ParentProcess` for claim C7: any read of
the pipe happens only after the kill and the reap; the returned status is ok
exactly when the classification was ok, the kill succeeded, the full frame
arrived and its status code is ok; and `code_location` is set from the frame
exactly on that path, staying untouched on every error return. -/
def FrameReadSpec (w : TrialWorld) (aa : AccessedAddrs) (st : Status)
    (aa1 : AccessedAddrs) (evs : List PEvent) : Prop :=
  ((∃ i n, evs.get? i = some (PEvent.readEv n)) →
     evs.get? 0 = some PEvent.killEv ∧ evs.get? 1 = some PEvent.reapEv)
  ∧ (st.code = .ok ↔
      ((ParentProcessInner w aa).1.code = .ok ∧ w.kill_result = 0 ∧
        (∃ log, ReadAll w.read_errno0 w.pipe_trace = some (.ioOk, true, log)) ∧
        w.frame.status_code = .ok))
  ∧ (st.code = .ok → aa1.code_location = w.frame.code_address)
  ∧ (st.code ≠ .ok → aa1.code_location = aa.code_location)

/-- Claim C7: the parent reads the IPC frame only after the child is killed
and reaped, and stores the frame's `code_address` into `code_location`
exactly when the trial fully succeeds; on any error return `code_location`
is unchanged. -/
theorem frame_read_after_reap (w : TrialWorld) (aa : AccessedAddrs) (st : Status)
    (aa1 : AccessedAddrs) (evs : List PEvent)
    (h : ParentProcess w aa = some (st, aa1, evs)) : FrameReadSpec w aa st aa1 evs := by
  rcases parent_shape w aa with ⟨hk, hp⟩ | ⟨hk, hok, hp⟩ | ⟨hk, hok, hr, hp⟩
    | ⟨st2, b2, log2, hk, hok, hr, hp⟩ | ⟨log2, hk, hok, hr, hrest⟩
  · rw [hp] at h
    simp only [Option.some.injEq, Prod.mk.injEq] at h
    obtain ⟨hst, haa, hevs⟩ := h
    subst hst
    subst haa
    subst hevs
    refine ⟨?_, ?_, ?_, fun _ => inner_code_location w aa⟩
    · rintro ⟨i, n, hi⟩
      rcases i with _ | i <;> simp at hi
    · refine iff_of_false (by simp [internalStatus]) ?_
      rintro ⟨-, h0, -⟩
      exact hk h0
    · intro habs
      exact absurd habs (by simp [internalStatus])
  · rw [hp] at h
    simp only [Option.some.injEq, Prod.mk.injEq] at h
    obtain ⟨hst, haa, hevs⟩ := h
    subst hst
    subst haa
    subst hevs
    refine ⟨?_, iff_of_false hok ?_, fun habs => absurd habs hok,
      fun _ => inner_code_location w aa⟩
    · rintro ⟨i, n, hi⟩
      rcases i with _ | _ | i <;> simp at hi
    · rintro ⟨hcode, -⟩
      exact hok hcode
  · rw [hp] at h
    cases h
  · rw [hp] at h
    simp only [Option.some.injEq, Prod.mk.injEq] at h
    obtain ⟨hst, haa, hevs⟩ := h
    subst hst
    subst haa
    subst hevs
    have hne : st2.code ≠ .ok :=
      readAllGo_ioErr_ne_ok kPipedDataSize w.pipe_trace 0 w.read_errno0 [] st2 b2 log2 hr
    refine ⟨fun _ => ⟨rfl, rfl⟩, ?_, fun habs => absurd habs hne,
      fun _ => inner_code_location w aa⟩
    refine iff_of_false hne ?_
    rintro ⟨-, -, ⟨log3, hl⟩, -⟩
    rw [hr] at hl
    simp at hl
  · rcases hrest with ⟨hf, hp⟩ | ⟨hf, hp⟩
    · rw [hp] at h
      simp only [Option.some.injEq, Prod.mk.injEq] at h
      obtain ⟨hst, haa, hevs⟩ := h
      subst hst
      subst haa
      subst hevs
      refine ⟨fun _ => ⟨rfl, rfl⟩, iff_of_false hf ?_, fun habs => absurd habs hf,
        fun _ => inner_code_location w aa⟩
      rintro ⟨-, -, -, hfok⟩
      exact hf hfok
    · rw [hp] at h
      simp only [Option.some.injEq, Prod.mk.injEq] at h
      obtain ⟨hst, haa, hevs⟩ := h
      subst hst
      subst haa
      subst hevs
      refine ⟨fun _ => ⟨rfl, rfl⟩, iff_of_true rfl ⟨hok, hk, ⟨log2, hr⟩, hf⟩,
        fun _ => rfl, fun hne => absurd rfl hne⟩

/-- Witness for the frame contract at a concrete fully successful trial. -/
theorem frame_read_after_reap_witness :
    ParentProcess (segvWorld 0) (initAA 1) =
      some (trialRes0.1, trialRes0.2.1, trialRes0.2.2)
    ∧ FrameReadSpec (segvWorld 0) (initAA 1) trialRes0.1 trialRes0.2.1 trialRes0.2.2 :=
  ⟨by decide,
   frame_read_after_reap (segvWorld 0) (initAA 1) trialRes0.1 trialRes0.2.1
     trialRes0.2.2 (by decide)⟩

/-- Whether a child action unmaps a region containing `target`. -/
def unmapsAround (target : Nat) : ChildAction → Bool
  | .munmapCall a l => decide (a ≤ target) && decide (target < a + l)
  | _ => false

/-- Every run of the child starts with the same three actions: request
tracing, raise the initial stop, and the best-effort unmap. -/
theorem child_actions_shape (w : ChildWorld) (bb : List Nat) (aa : AccessedAddrs)
    (out : ChildOutcome) (h : ChildProcess w bb aa = some out) :
    ∃ rest, out.actions = [ChildAction.traceMe, ChildAction.raiseStop,
      ChildAction.munmapCall 0x800000000 0x10000] ++ rest := by
  unfold ChildProcess at h
  dsimp only at h
  split at h
  · split at h
    · cases h
    · simp only [Option.some.injEq] at h
      subst h
      exact ⟨_, rfl⟩
  · split at h
    · simp only [Option.some.injEq] at h
      subst h
      exact ⟨_, rfl⟩
    · split at h
      · cases h
      · split at h
        · simp only [Option.some.injEq] at h
          subst h
          exact ⟨_, rfl⟩
        · simp only [Option.some.injEq] at h
          subst h
          exact ⟨_, rfl⟩

theorem pre_take_and_blocks (rest : List ChildAction) :
    (([ChildAction.traceMe, ChildAction.raiseStop,
       ChildAction.munmapCall 0x800000000 0x10000] ++ rest).take 3 =
      [ChildAction.traceMe, ChildAction.raiseStop,
       ChildAction.munmapCall 0x800000000 0x10000])
    ∧ ∀ i a l, ([ChildAction.traceMe, ChildAction.raiseStop,
        ChildAction.munmapCall 0x800000000 0x10000] ++ rest).get? i =
          some (ChildAction.mmapBlockCall a l) → 3 ≤ i := by
  constructor
  · rfl
  · intro i a l hi
    match i with
    | 0 => simp [List.get?] at hi
    | 1 => simp [List.get?] at hi
    | 2 => simp [List.get?] at hi
    | (k + 3) => omega

/-- The child-startup contract for claim C9: after raising the initial stop
and before mapping any discovered block, the child unmaps the 0x10000 bytes
at 0x8'0000'0000 (the region containing 0x8'0000'0008, the value the fill
pattern surfaces), and its behaviour is identical whatever that unmap
returns. -/
def ChildSeqSpec (w : ChildWorld) (bb : List Nat) (aa : AccessedAddrs)
    (out : ChildOutcome) : Prop :=
  out.actions.take 3 = [ChildAction.traceMe, ChildAction.raiseStop,
    ChildAction.munmapCall 0x800000000 0x10000]
  ∧ (∀ i a l, out.actions.get? i = some (ChildAction.mmapBlockCall a l) → 3 ≤ i)
  ∧ unmapsAround 0x800000008 (ChildAction.munmapCall 0x800000000 0x10000) = true
  ∧ ∀ b : Bool, ChildProcess { w with munmap_ok := b } bb aa = ChildProcess w bb aa

/-- Claim C9 (amended): between the initial stop and any block mapping the
child attempts to unmap the 0x10000-byte region starting at 0x8'0000'0000 —
not 0x8000'0000 as the claim reads — and ignores the outcome of that unmap
entirely. -/
theorem child_unmaps_magic_region_first (w : ChildWorld) (bb : List Nat)
    (aa : AccessedAddrs) (out : ChildOutcome)
    (h : ChildProcess w bb aa = some out) : ChildSeqSpec w bb aa out := by
  obtain ⟨rest, hrest⟩ := child_actions_shape w bb aa out h
  refine ⟨?_, ?_, by decide, fun b => rfl⟩
  · rw [hrest]
    exact (pre_take_and_blocks rest).1
  · intro i a l hi
    rw [hrest] at hi
    exact (pre_take_and_blocks rest).2 i a l hi

def childOut0 : ChildOutcome :=
  { actions := [.traceMe, .raiseStop, .munmapCall 0x800000000 0x10000,
                .mmapCodeCall kDefaultCodeLocation 15],
    terminal := .abortedPlain }

/-- Claim C9 (counterexample): the region the child actually unmaps is the
0x10000 bytes starting at 0x8'0000'0000; no unmap in the trace covers the
address 0x8000'0000 named by the claim (which is sixteen times smaller), while
the magic value 0x8'0000'0008 produced by the fill pattern is covered. -/
theorem child_unmap_region_not_at_0x80000000 :
    ChildProcess childWorld0 [] (initAA 4096) = some childOut0
    ∧ childOut0.actions.any (unmapsAround 0x80000000) = false
    ∧ childOut0.actions.any (unmapsAround 0x800000008) = true := by
  refine ⟨by decide, by decide, by decide⟩

/-- Witness for the child-startup contract at a concrete run. -/
theorem child_unmaps_magic_region_first_witness :
    ChildProcess childWorld0 [] (initAA 4096) = some childOut0
    ∧ ChildSeqSpec childWorld0 [] (initAA 4096) childOut0 :=
  ⟨by decide,
   child_unmaps_magic_region_first childWorld0 [] (initAA 4096) childOut0 (by decide)⟩

end Gematria
